import Mathlib

/-!
Verification of the balance-robot LQR controller node
(src/balance_robot/src/balance_lqr_controller.cpp).

The floating-point values of the source are modelled as exact rational
numbers; the constant M_PI of math.h is rendered as the binary64 value
nearest to pi, which is the number the compiled program actually uses.
The asynchronous ROS2 callbacks are modelled as explicit state
transformers on a record of the global variables of the file, and the
main control loop as a step function on that record plus the two locals
(target_w and velocity_lp) that live inside main.  Because the node uses
a single-threaded spin_some after publishing, callbacks run exactly
between cycle bodies, which the step function reflects.
-/

namespace BalanceRobot

/-- The binary64 (IEEE double) value of the constant M_PI used by the
source: 884279719003555 / 2^48. -/
def M_PI : ℚ := 884279719003555 / 281474976710656

/-- struct vel_cmd (lines 25-30). -/
structure vel_cmd where
  forward : ℚ
  turn : ℚ
  forward_gain : ℚ
  turn_gain : ℚ
  deriving DecidableEq

/-- struct orientation (lines 32-40); also stands for the Orientation
message, whose seven fields are copied wholesale by the callbacks. -/
structure orientation where
  roll : ℚ
  pitch : ℚ
  yaw : ℚ
  d_roll : ℚ
  d_pitch : ℚ
  d_yaw : ℚ
  dt : ℚ
  deriving DecidableEq

/-- struct encoders (lines 42-47). -/
structure encoders where
  position_left : ℚ
  position_right : ℚ
  velocity_left : ℚ
  velocity_right : ℚ
  deriving DecidableEq

/-- struct inner_wheel (lines 54-57). -/
structure inner_wheel where
  position : ℚ
  velocity : ℚ
  deriving DecidableEq

/-- double cprToRad(double cpr_value) (lines 99-101). -/
def cprToRad (cpr_value : ℚ) : ℚ := cpr_value * 2 * M_PI / 8192

/-- double radToCpr(double rad_value) (lines 103-105). -/
def radToCpr (rad_value : ℚ) : ℚ := rad_value * 8192 / (2 * M_PI)

/-- One channel of the Encoders message (encoder0 / encoder1). -/
structure encoder_channel where
  position : ℚ
  velocity : ℚ
  deriving DecidableEq

/-- The raw Encoders message consumed by encoders_topic_callback. -/
structure EncodersMsg where
  encoder0 : encoder_channel
  encoder1 : encoder_channel
  deriving DecidableEq

/-- encoders_topic_callback (lines 107-115): returns the new
encoders_measurement and the new combined_inner_wheel. -/
def encoders_topic_callback (msg : EncodersMsg) : encoders × inner_wheel :=
  let m : encoders :=
    { position_left := cprToRad (msg.encoder1.position * -1)
      position_right := cprToRad msg.encoder0.position
      velocity_left := cprToRad (msg.encoder1.velocity * -1)
      velocity_right := cprToRad msg.encoder0.velocity }
  (m, { position := m.position_right
        velocity := (m.velocity_right + m.velocity_left) / 2 })

/-- The two joystick axes read by joy_topic_callback. -/
structure JoyMsg where
  axes0 : ℚ
  axes1 : ℚ
  deriving DecidableEq

/-- One changed parameter of a ParameterEvent. -/
structure Parameter where
  name : String
  double_value : ℚ
  deriving DecidableEq

/-- The mutable file-scope globals of the source (lines 59-70).
motor_position (line 69) is omitted: it is never read nor written after
its initialiser anywhere in the file. -/
structure Globals where
  main_loop : ℚ
  velocity_cmd : vel_cmd
  orientation_imu_measurement : orientation
  orientation_ow_measurement : orientation
  encoders_measurement : encoders
  vel_lowpass : ℚ
  combined_inner_wheel : inner_wheel
  deriving DecidableEq

/-- The initial globals (lines 59-70).  The braced initialiser
{.0, .0, .0, .2} of the two orientation globals sets roll, pitch, yaw,
d_roll and zero-initialises the remaining fields.  vel_lowpass is a
declared ROS parameter (line 135) whose effective value may be supplied
from outside the process, so it is a parameter of the model; the
in-source default is 20. -/
def init_globals (vl : ℚ) : Globals :=
  { main_loop := 0.08
    velocity_cmd := { forward := 0, turn := 0, forward_gain := 0.05, turn_gain := 3 }
    orientation_imu_measurement :=
      { roll := 0, pitch := 0, yaw := 0, d_roll := 0.2, d_pitch := 0, d_yaw := 0, dt := 0 }
    orientation_ow_measurement :=
      { roll := 0, pitch := 0, yaw := 0, d_roll := 0.2, d_pitch := 0, d_yaw := 0, dt := 0 }
    encoders_measurement :=
      { position_left := 0, position_right := 0, velocity_left := 0, velocity_right := 0 }
    vel_lowpass := vl
    combined_inner_wheel := { position := 0, velocity := 0 } }

/-- joy_topic_callback (lines 72-75). -/
def joy_topic_callback (g : Globals) (msg : JoyMsg) : Globals :=
  { g with velocity_cmd :=
      { g.velocity_cmd with forward := msg.axes1, turn := msg.axes0 } }

/-- orientation_imu_topic_callback (lines 77-86). -/
def orientation_imu_topic_callback (g : Globals) (msg : orientation) : Globals :=
  { g with orientation_imu_measurement :=
      { roll := msg.roll, pitch := msg.pitch, yaw := msg.yaw, d_roll := msg.d_roll
        d_pitch := msg.d_pitch, d_yaw := msg.d_yaw, dt := msg.dt } }

/-- orientation_ow_topic_callback (lines 88-97). -/
def orientation_ow_topic_callback (g : Globals) (msg : orientation) : Globals :=
  { g with orientation_ow_measurement :=
      { roll := msg.roll, pitch := msg.pitch, yaw := msg.yaw, d_roll := msg.d_roll
        d_pitch := msg.d_pitch, d_yaw := msg.d_yaw, dt := msg.dt } }

/-- The effect of encoders_topic_callback on the globals. -/
def encoders_global_callback (g : Globals) (msg : EncodersMsg) : Globals :=
  let r := encoders_topic_callback msg
  { g with encoders_measurement := r.1, combined_inner_wheel := r.2 }

/-- The body of the for loop of param_change_callback (lines 119-127)
for a single changed parameter. -/
def param_apply (g : Globals) (p : Parameter) : Globals :=
  let g1 :=
    if p.name == "vel_cmd.forward_gain" then
      { g with velocity_cmd := { g.velocity_cmd with forward_gain := p.double_value } }
    else g
  let g2 :=
    if p.name == "vel_cmd.turn_gain" then
      { g1 with velocity_cmd := { g1.velocity_cmd with turn_gain := p.double_value } }
    else g1
  if p.name == "main_loop" then { g2 with main_loop := p.double_value } else g2

/-- param_change_callback (lines 117-128). -/
def param_change_callback (g : Globals) (event : List Parameter) : Globals :=
  event.foldl param_apply g

/-- One inbound message dispatched by spin_some. -/
inductive Event where
  | joy (msg : JoyMsg)
  | imu (msg : orientation)
  | ow (msg : orientation)
  | enc (msg : EncodersMsg)
  | param (event : List Parameter)
  deriving DecidableEq

/-- Dispatch of one event to its callback. -/
def handle_event (g : Globals) : Event → Globals
  | .joy msg => joy_topic_callback g msg
  | .imu msg => orientation_imu_topic_callback g msg
  | .ow msg => orientation_ow_topic_callback g msg
  | .enc msg => encoders_global_callback g msg
  | .param ps => param_change_callback g ps

/-- float control_k[6] (line 176). -/
def control_k : Fin 6 → ℚ :=
  ![-453.11421438, -41.03540067, 15.17484972, -6.16366411, -4.47213596, -4.30609058]

/-- float target_w[6] = {0.1415, 0, 0, 0, 0, 0} (line 175). -/
def target_w_init : Fin 6 → ℚ := ![0.1415, 0, 0, 0, 0, 0]

/-- The assembly of state_x from the sensor globals (lines 181-186). -/
def state_x (imu ow : orientation) (wheel : inner_wheel) : Fin 6 → ℚ :=
  ![imu.roll, imu.d_roll, -1 * ow.pitch, -1 * ow.d_pitch, wheel.position, wheel.velocity]

/-- The reference integration (lines 188-189):
target_w[4] += forward * forward_gain; target_w[5] = forward * forward_gain. -/
def reference_integrate (t : Fin 6 → ℚ) (cmd : vel_cmd) : Fin 6 → ℚ :=
  Function.update (Function.update t 4 (t 4 + cmd.forward * cmd.forward_gain)) 5
    (cmd.forward * cmd.forward_gain)

/-- The two sequential clamps of target_w[4] (lines 191-198). -/
def reference_clamp (t x : Fin 6 → ℚ) : Fin 6 → ℚ :=
  let t1 := if t 4 > x 4 + M_PI * 2 then Function.update t 4 (x 4 + M_PI * 2) else t
  if t1 4 < x 4 - M_PI * 2 then Function.update t1 4 (x 4 - M_PI * 2) else t1

/-- The whole reference-trajectory update of one cycle (lines 188-198). -/
def reference_update (t x : Fin 6 → ℚ) (cmd : vel_cmd) : Fin 6 → ℚ :=
  reference_clamp (reference_integrate t cmd) x

/-- The accumulation loop for motor_increment (lines 200-203), with the
gain vector abstracted so that statements about all-zero gains make
sense; the source always passes control_k. -/
def control_loop (k x t : Fin 6 → ℚ) : ℚ :=
  (List.finRange 6).foldl (fun acc i => acc - (x i - t i) * k i) 0

/-- The velocity low-pass update (line 205). -/
def velocity_lp_step (velocity_lp x5 : ℚ) : ℚ := (velocity_lp + x5) / 2

/-- Iterating the low-pass update against a constant input v. -/
def velocity_lp_iter (velocity_lp v : ℚ) : ℕ → ℚ
  | 0 => velocity_lp
  | n + 1 => velocity_lp_step (velocity_lp_iter velocity_lp v n) v

/-- pwm_target_left (lines 209-210). -/
def pwm_target_left (pwm_target : ℚ) (cmd : vel_cmd) : ℚ :=
  pwm_target - cmd.turn * cmd.turn_gain

/-- pwm_target_right (lines 211-212). -/
def pwm_target_right (pwm_target : ℚ) (cmd : vel_cmd) : ℚ :=
  pwm_target + cmd.turn * cmd.turn_gain

/-- The Balance message published each cycle (lines 215-231). -/
structure BalanceMsg where
  roll_setpoint : ℚ
  roll_measurement : ℚ
  roll_increment : ℚ
  velocity_setpoint : ℚ
  velocity_measurement : ℚ
  velocity_increment : ℚ
  motor : ℚ
  motor_left : ℚ
  motor_right : ℚ
  deriving DecidableEq

/-- The Motors message published each cycle (lines 235-243). -/
structure MotorsMsg where
  motor1_setpoint : ℚ
  motor0_setpoint : ℚ
  deriving DecidableEq

/-- The two locals of main that persist across cycles (lines 172-175). -/
structure CycleState where
  target_w : Fin 6 → ℚ
  velocity_lp : ℚ

/-- The body of one iteration of the while loop (lines 181-244), given
the assembled state vector x, the current velocity_cmd and the current
main_loop period.  Returns the updated locals and the two published
messages. -/
def cycle_core (s : CycleState) (x : Fin 6 → ℚ) (cmd : vel_cmd) (ml : ℚ) :
    CycleState × BalanceMsg × MotorsMsg :=
  let t := reference_update s.target_w x cmd
  let motor_increment := control_loop control_k x t
  let velocity_lp := velocity_lp_step s.velocity_lp (x 5)
  let pwm_target := velocity_lp + motor_increment * ml
  let pl := pwm_target_left pwm_target cmd
  let pr := pwm_target_right pwm_target cmd
  (⟨t, velocity_lp⟩,
   { roll_setpoint := x 0, roll_measurement := x 1, roll_increment := x 2
     velocity_setpoint := x 3, velocity_measurement := x 4, velocity_increment := x 5
     motor := pwm_target, motor_left := pl, motor_right := pr },
   { motor1_setpoint := radToCpr (pl * -1)
     motor0_setpoint := radToCpr pr })

/-- The full process state: globals plus the loop locals. -/
structure LoopState where
  g : Globals
  target_w : Fin 6 → ℚ
  velocity_lp : ℚ

/-- The state vector assembled from the current globals. -/
def cycle_inputs_x (g : Globals) : Fin 6 → ℚ :=
  state_x g.orientation_imu_measurement g.orientation_ow_measurement g.combined_inner_wheel

/-- One full loop iteration: the cycle body reads the globals and
publishes, then spin_some delivers the pending events evs (line 245). -/
def loop_step (s : LoopState) (evs : List Event) : LoopState × BalanceMsg × MotorsMsg :=
  let r := cycle_core ⟨s.target_w, s.velocity_lp⟩ (cycle_inputs_x s.g)
    s.g.velocity_cmd s.g.main_loop
  (⟨evs.foldl handle_event s.g, r.1.target_w, r.1.velocity_lp⟩, r.2)

/-- The state of the process when the while loop is first entered:
initial globals, target_w = {0.1415,0,0,0,0,0}, velocity_lp = 0. -/
def init_loop_state (vl : ℚ) : LoopState :=
  ⟨init_globals vl, target_w_init, 0⟩

/-- Running the loop over a list of cycles, each with its batch of
events; returns the final state. -/
def run_state (s : LoopState) : List (List Event) → LoopState
  | [] => s
  | evs :: rest => run_state (loop_step s evs).1 rest

/-- Running the loop over a list of cycles; returns the published
message pairs, one per cycle. -/
def run_outputs (s : LoopState) : List (List Event) → List (BalanceMsg × MotorsMsg)
  | [] => []
  | evs :: rest => (loop_step s evs).2 :: run_outputs (loop_step s evs).1 rest

/-- The seconds argument the source passes to the POSIX sleep primitive
(line 246): sleep takes an unsigned int, so the float period main_loop
is converted with truncation toward zero. -/
def sleep_seconds_requested (main_loop : ℚ) : ℕ := ⌊main_loop⌋₊

lemma M_PI_pos : (0 : ℚ) < M_PI := by norm_num [M_PI]

lemma M_PI_ne_zero : M_PI ≠ 0 := by norm_num [M_PI]

/-- C6: cprToRad computes x * 2 * pi / 8192 and radToCpr computes
x * 8192 / (2 * pi) with the M_PI constant of the source; both are
total functions of the model, and over exact arithmetic they are exact
mutual inverses at every input. -/
theorem tick_radian_inverse (x : ℚ) :
    cprToRad x = x * 2 * M_PI / 8192 ∧
    radToCpr x = x * 8192 / (2 * M_PI) ∧
    cprToRad (radToCpr x) = x ∧
    radToCpr (cprToRad x) = x := by
  have h : M_PI ≠ 0 := M_PI_ne_zero
  refine ⟨rfl, rfl, ?_, ?_⟩ <;> (unfold cprToRad radToCpr; field_simp; ring)

/-- C6 witness: the inverse round trips evaluated at 8192. -/
theorem tick_radian_inverse_witness :
    cprToRad (radToCpr 8192) = 8192 ∧ radToCpr (cprToRad 8192) = 8192 :=
  ⟨(tick_radian_inverse 8192).2.2.1, (tick_radian_inverse 8192).2.2.2⟩

/-- C8: the duration actually requested from the sleep primitive is the
truncation of main_loop to whole seconds, so at the default period 0.08
the loop requests a sleep of 0 seconds although the configured period
0.08 is nonzero; the request matches the period only at whole-second
values such as 1. -/
theorem sleep_request_truncated :
    sleep_seconds_requested 0.08 = 0 ∧ (0.08 : ℚ) ≠ 0 ∧
    sleep_seconds_requested 1 = 1 := by
  refine ⟨?_, by norm_num, by simp [sleep_seconds_requested]⟩
  unfold sleep_seconds_requested
  rw [Nat.floor_eq_zero]
  norm_num

/-- C2: after the integrate-then-clamp reference update of a cycle, the
position target (index 4) lies in the closed interval
[state4 - 2 pi, state4 + 2 pi] for every reference vector, every state
vector and every command. -/
theorem target4_clamped (t x : Fin 6 → ℚ) (cmd : vel_cmd) :
    x 4 - M_PI * 2 ≤ reference_update t x cmd 4 ∧
    reference_update t x cmd 4 ≤ x 4 + M_PI * 2 := by
  have hpi := M_PI_pos
  constructor <;>
    (unfold reference_update reference_clamp;
     split_ifs <;> simp_all [Function.update] <;> linarith)

/-- C2 witness: the clamp window evaluated at the initial reference
vector, a zero state vector and the default command. -/
theorem target4_clamped_witness :
    (fun _ : Fin 6 => (0 : ℚ)) 4 - M_PI * 2 ≤
      reference_update target_w_init (fun _ => 0) ⟨0, 0, 0.05, 3⟩ 4 ∧
    reference_update target_w_init (fun _ => 0) ⟨0, 0, 0.05, 3⟩ 4 ≤
      (fun _ : Fin 6 => (0 : ℚ)) 4 + M_PI * 2 :=
  target4_clamped target_w_init (fun _ => 0) ⟨0, 0, 0.05, 3⟩

/-- If the integrated target is already inside the window, the two
clamps of lines 191-198 leave it unchanged. -/
lemma reference_clamp_of_le (t x : Fin 6 → ℚ)
    (hlo : x 4 - M_PI * 2 ≤ t 4) (hhi : t 4 ≤ x 4 + M_PI * 2) :
    reference_clamp t x = t := by
  unfold reference_clamp
  split_ifs with h1
  · exact absurd h1 (not_lt.mpr hhi)
  · show (if t 4 < x 4 - M_PI * 2 then Function.update t 4 (x 4 - M_PI * 2) else t) = t
    rw [if_neg (not_lt.mpr hlo)]

/-- C3: the reference update adds forward * forward_gain to target4 and
assigns forward * forward_gain to target5 before clamping; from rest
(wheel position 0, position target 0) one cycle with forward = 1 and
forward_gain = 0.05 raises target4 by exactly 0.05 and sets target5 to
exactly 0.05. -/
theorem reference_integration (t : Fin 6 → ℚ) (cmd : vel_cmd) (lp ml : ℚ) :
    reference_integrate t cmd 4 = t 4 + cmd.forward * cmd.forward_gain ∧
    reference_integrate t cmd 5 = cmd.forward * cmd.forward_gain ∧
    (t 4 = 0 →
      (cycle_core ⟨t, lp⟩ (fun _ => 0) ⟨1, 0, 0.05, 3⟩ ml).1.target_w 4 = t 4 + 0.05 ∧
      (cycle_core ⟨t, lp⟩ (fun _ => 0) ⟨1, 0, 0.05, 3⟩ ml).1.target_w 5 = 0.05) := by
  refine ⟨by simp [reference_integrate, Function.update],
          by simp [reference_integrate, Function.update], ?_⟩
  intro h
  have hi4 : reference_integrate t ⟨1, 0, 0.05, 3⟩ 4 = t 4 + 0.05 := by
    simp [reference_integrate, Function.update]
  have hi5 : reference_integrate t ⟨1, 0, 0.05, 3⟩ 5 = 0.05 := by
    simp [reference_integrate, Function.update]
  have hcl : reference_update t (fun _ => 0) ⟨1, 0, 0.05, 3⟩ =
      reference_integrate t ⟨1, 0, 0.05, 3⟩ :=
    reference_clamp_of_le _ _
      (by rw [hi4, h]; norm_num [M_PI]) (by rw [hi4, h]; norm_num [M_PI])
  constructor
  · show reference_update t (fun _ => 0) ⟨1, 0, 0.05, 3⟩ 4 = t 4 + 0.05
    rw [hcl, hi4]
  · show reference_update t (fun _ => 0) ⟨1, 0, 0.05, 3⟩ 5 = 0.05
    rw [hcl, hi5]

/-- C4: every encoder update sets velocity_left to
cprToRad(-raw left velocity) (the left channel, encoder1, is
sign-inverted), velocity_right to cprToRad(raw right velocity), and
recomputes the combined wheel state as position = right wheel position
and velocity = mean of the two velocities; raw velocities
left = -8192, right = 8192 yield velocity_left = velocity_right =
combined velocity = 2 pi. -/
theorem encoder_conversion (msg : EncodersMsg) :
    (encoders_topic_callback msg).1.velocity_left = cprToRad (-msg.encoder1.velocity) ∧
    (encoders_topic_callback msg).1.velocity_right = cprToRad msg.encoder0.velocity ∧
    (encoders_topic_callback msg).2.position = (encoders_topic_callback msg).1.position_right ∧
    (encoders_topic_callback msg).2.velocity =
      ((encoders_topic_callback msg).1.velocity_left +
        (encoders_topic_callback msg).1.velocity_right) / 2 ∧
    (msg.encoder1.velocity = -8192 ∧ msg.encoder0.velocity = 8192 →
      (encoders_topic_callback msg).1.velocity_left = 2 * M_PI ∧
      (encoders_topic_callback msg).1.velocity_right = 2 * M_PI ∧
      (encoders_topic_callback msg).2.velocity = 2 * M_PI) := by
  refine ⟨by unfold encoders_topic_callback cprToRad; ring,
          rfl, rfl,
          by unfold encoders_topic_callback; ring, ?_⟩
  rintro ⟨h1, h0⟩
  unfold encoders_topic_callback cprToRad
  rw [h1, h0]
  norm_num
  ring

/-- C4 witness: the concrete encoder message of the end-to-end
scenario, with raw velocities left = -8192 and right = 8192. -/
theorem encoder_conversion_witness :
    (encoders_topic_callback ⟨⟨0, 8192⟩, ⟨0, -8192⟩⟩).1.velocity_left = 2 * M_PI ∧
    (encoders_topic_callback ⟨⟨0, 8192⟩, ⟨0, -8192⟩⟩).1.velocity_right = 2 * M_PI ∧
    (encoders_topic_callback ⟨⟨0, 8192⟩, ⟨0, -8192⟩⟩).2.velocity = 2 * M_PI :=
  (encoder_conversion ⟨⟨0, 8192⟩, ⟨0, -8192⟩⟩).2.2.2.2 ⟨rfl, rfl⟩

/-- C5: the output shaper of the cycle yields
motor_left = pwm_target - turn * turn_gain and
motor_right = pwm_target + turn * turn_gain, the tick setpoints are
radToCpr(-pwm_left) (axis inverted) and radToCpr(pwm_right); turn = 0
gives pwm_left = pwm_right = pwm_target, and turn = 1, turn_gain = 3,
pwm_target = 5 gives pwm_left = 2 and pwm_right = 8. -/
theorem output_shaper (s : CycleState) (x : Fin 6 → ℚ) (cmd : vel_cmd) (ml : ℚ) :
    (cycle_core s x cmd ml).2.1.motor_left =
      (cycle_core s x cmd ml).2.1.motor - cmd.turn * cmd.turn_gain ∧
    (cycle_core s x cmd ml).2.1.motor_right =
      (cycle_core s x cmd ml).2.1.motor + cmd.turn * cmd.turn_gain ∧
    (cycle_core s x cmd ml).2.2.motor1_setpoint =
      radToCpr (-(cycle_core s x cmd ml).2.1.motor_left) ∧
    (cycle_core s x cmd ml).2.2.motor0_setpoint =
      radToCpr ((cycle_core s x cmd ml).2.1.motor_right) ∧
    (cmd.turn = 0 →
      (cycle_core s x cmd ml).2.1.motor_left = (cycle_core s x cmd ml).2.1.motor ∧
      (cycle_core s x cmd ml).2.1.motor_right = (cycle_core s x cmd ml).2.1.motor) ∧
    pwm_target_left 5 ⟨0, 1, 0.05, 3⟩ = 2 ∧
    pwm_target_right 5 ⟨0, 1, 0.05, 3⟩ = 8 := by
  refine ⟨rfl, rfl,
          by unfold cycle_core radToCpr pwm_target_left; ring, rfl, ?_,
          by unfold pwm_target_left; norm_num,
          by unfold pwm_target_right; norm_num⟩
  intro h
  unfold cycle_core pwm_target_left pwm_target_right
  rw [h]
  constructor <;> ring

/-- C5 witness: a concrete cycle with turn = 0 on which both shaped
outputs equal the common pwm_target. -/
theorem output_shaper_witness :
    (cycle_core ⟨target_w_init, 0⟩ (fun _ => 0) ⟨0, 0, 0.05, 3⟩ 0.08).2.1.motor_left =
      (cycle_core ⟨target_w_init, 0⟩ (fun _ => 0) ⟨0, 0, 0.05, 3⟩ 0.08).2.1.motor ∧
    (cycle_core ⟨target_w_init, 0⟩ (fun _ => 0) ⟨0, 0, 0.05, 3⟩ 0.08).2.1.motor_right =
      (cycle_core ⟨target_w_init, 0⟩ (fun _ => 0) ⟨0, 0, 0.05, 3⟩ 0.08).2.1.motor :=
  (output_shaper ⟨target_w_init, 0⟩ (fun _ => 0) ⟨0, 0, 0.05, 3⟩ 0.08).2.2.2.2.1 rfl

/-- C3 witness: the scenario instantiated at the initial target vector
{0.1415, 0, 0, 0, 0, 0}, whose index 4 is 0. -/
theorem reference_integration_witness :
    (cycle_core ⟨target_w_init, 0⟩ (fun _ => 0) ⟨1, 0, 0.05, 3⟩ 0.08).1.target_w 4 =
      target_w_init 4 + 0.05 ∧
    (cycle_core ⟨target_w_init, 0⟩ (fun _ => 0) ⟨1, 0, 0.05, 3⟩ 0.08).1.target_w 5 = 0.05 :=
  (reference_integration target_w_init ⟨1, 0, 0.05, 3⟩ 0 0.08).2.2 (by decide)

/-- Closed form of the iterated low-pass error. -/
lemma velocity_lp_iter_closed (lp v : ℚ) (n : ℕ) :
    velocity_lp_iter lp v n - v = (lp - v) / 2 ^ n := by
  induction n with
  | zero => simp [velocity_lp_iter]
  | succ n ih =>
    have hs : velocity_lp_iter lp v (n + 1) = (velocity_lp_iter lp v n + v) / 2 := rfl
    have h2 : velocity_lp_iter lp v n = (lp - v) / 2 ^ n + v := by linarith
    rw [hs, h2, pow_succ]
    ring

/-- C7: the per-cycle low-pass update has the constant input as a fixed
point, halves the distance to a held input every cycle (closed form
(lp - v) / 2 ^ n after n cycles), and therefore converges to the held
input. -/
theorem velocity_lowpass_convergence (lp v : ℚ) :
    velocity_lp_step v v = v ∧
    |velocity_lp_step lp v - v| = |lp - v| / 2 ∧
    (∀ n : ℕ, |velocity_lp_iter lp v n - v| = |lp - v| / 2 ^ n) ∧
    (∀ ε : ℚ, 0 < ε → ∃ N : ℕ, ∀ n : ℕ, N ≤ n → |velocity_lp_iter lp v n - v| < ε) := by
  have hclosed : ∀ n : ℕ, |velocity_lp_iter lp v n - v| = |lp - v| / 2 ^ n := by
    intro n
    rw [velocity_lp_iter_closed, abs_div, abs_pow]
    norm_num
  refine ⟨by unfold velocity_lp_step; ring, ?_, hclosed, ?_⟩
  · rw [show velocity_lp_step lp v - v = (lp - v) / 2 from by unfold velocity_lp_step; ring,
      abs_div]
    norm_num
  · intro ε hε
    obtain ⟨N, hN⟩ := exists_nat_gt (|lp - v| / ε)
    refine ⟨N, fun n hn => ?_⟩
    rw [hclosed n]
    have h2 : (0 : ℚ) < 2 ^ n := by positivity
    rw [div_lt_iff₀ h2]
    have hlt : |lp - v| < N * ε := by
      rw [div_lt_iff₀ hε] at hN
      exact hN
    have hn2 : (N : ℚ) ≤ (n : ℚ) := by exact_mod_cast hn
    have hpow : (n : ℚ) < 2 ^ n := by exact_mod_cast Nat.lt_two_pow n
    nlinarith [abs_nonneg (lp - v)]

/-- C7 witness: with the held input 4 and start value 20, the fixed
point holds and the error eventually drops below 1. -/
theorem velocity_lowpass_convergence_witness :
    velocity_lp_step 4 4 = 4 ∧
    ∃ N : ℕ, ∀ n : ℕ, N ≤ n → |velocity_lp_iter 20 4 n - 4| < 1 :=
  ⟨(velocity_lowpass_convergence 4 4).1,
   (velocity_lowpass_convergence 20 4).2.2.2 1 (by norm_num)⟩

/-- C1: the accumulation loop computes exactly the negated gain
dot-product of the state error (hence it vanishes when all six gains or
all six errors are zero), and the published motor scalar is the freshly
updated low-pass value plus the control value times the loop period. -/
theorem control_law (k x t : Fin 6 → ℚ) (s : CycleState) (cmd : vel_cmd) (ml : ℚ) :
    control_loop k x t = -(∑ i : Fin 6, k i * (x i - t i)) ∧
    ((∀ i, k i = 0) ∨ (∀ i, x i - t i = 0) → control_loop k x t = 0) ∧
    (cycle_core s x cmd ml).2.1.motor =
      velocity_lp_step s.velocity_lp (x 5) +
        control_loop control_k x (reference_update s.target_w x cmd) * ml := by
  have hsum : control_loop k x t = -(∑ i : Fin 6, k i * (x i - t i)) := by
    unfold control_loop
    rw [show (List.finRange 6) = [0, 1, 2, 3, 4, 5] from by decide]
    simp [List.foldl, Fin.sum_univ_six]
    ring
  refine ⟨hsum, ?_, rfl⟩
  rintro (hk | he)
  · rw [hsum]
    simp [hk]
  · rw [hsum]
    have hz : ∀ i : Fin 6, k i * (x i - t i) = 0 := fun i => by rw [he i, mul_zero]
    simp [hz]

/-- C1 witness: both degenerate cases evaluated concretely, once with
an all-zero gain vector and once with the gain vector of the source and
a zero state error. -/
theorem control_law_witness :
    control_loop (fun _ => 0) (fun _ => 1) (fun _ => 0) = 0 ∧
    control_loop control_k (fun _ => 1) (fun _ => 1) = 0 :=
  ⟨(control_law (fun _ => 0) (fun _ => 1) (fun _ => 0) ⟨target_w_init, 0⟩
      ⟨0, 0, 0.05, 3⟩ 0.08).2.1 (Or.inl fun _ => rfl),
   (control_law control_k (fun _ => 1) (fun _ => 1) ⟨target_w_init, 0⟩
      ⟨0, 0, 0.05, 3⟩ 0.08).2.1 (Or.inr fun _ => sub_self 1)⟩

/-- The reference update touches only indices 4 and 5. -/
lemma reference_update_low (t x : Fin 6 → ℚ) (cmd : vel_cmd) (i : Fin 6)
    (h : i.val < 4) : reference_update t x cmd i = t i := by
  have h4 : i ≠ 4 := by rintro rfl; revert h; decide
  have h5 : i ≠ 5 := by rintro rfl; revert h; decide
  unfold reference_update reference_clamp reference_integrate
  split_ifs <;>
    simp [Function.update_noteq h4, Function.update_noteq h5]

/-- Indices below 4 of target_w are invariant under any run. -/
lemma run_state_target_low (i : Fin 6) (h : i.val < 4) :
    ∀ (evss : List (List Event)) (s : LoopState),
      (run_state s evss).target_w i = s.target_w i := by
  intro evss
  induction evss with
  | nil => intro s; rfl
  | cons evs rest ih =>
    intro s
    rw [run_state, ih]
    exact reference_update_low _ _ _ i h

/-- C9: the reference vector starts as {0.1415, 0, 0, 0, 0, 0} and its
indices 0 to 3 keep those initial values after any number of cycles
with any interleaving of inbound events, for any vel_lowpass parameter
value. -/
theorem target_low_indices_frozen (vl : ℚ) (evss : List (List Event)) (i : Fin 6)
    (h : i.val < 4) :
    (init_loop_state vl).target_w = ![0.1415, 0, 0, 0, 0, 0] ∧
    (run_state (init_loop_state vl) evss).target_w i = target_w_init i :=
  ⟨rfl, by rw [run_state_target_low i h]; rfl⟩

/-- C9 witness: a two-cycle run with an intervening encoder event keeps
index 2 of the reference vector at its initial value. -/
theorem target_low_indices_frozen_witness :
    (init_loop_state 20).target_w = ![0.1415, 0, 0, 0, 0, 0] ∧
    (run_state (init_loop_state 20) [[Event.enc ⟨⟨1, 2⟩, ⟨3, 4⟩⟩], []]).target_w 2 =
      target_w_init 2 :=
  target_low_indices_frozen 20 [[Event.enc ⟨⟨1, 2⟩, ⟨3, 4⟩⟩], []] 2 (by decide)

/-- Agreement of two orientation values on the four fields the control
path reads (roll, pitch, d_roll, d_pitch); yaw, d_yaw and dt are free. -/
def orientation_visible_eq (a b : orientation) : Prop :=
  a.roll = b.roll ∧ a.pitch = b.pitch ∧ a.d_roll = b.d_roll ∧ a.d_pitch = b.d_pitch

/-- Agreement of two raw encoder messages everywhere except the raw
left-wheel (encoder1) position. -/
def enc_msg_visible_eq (a b : EncodersMsg) : Prop :=
  a.encoder0 = b.encoder0 ∧ a.encoder1.velocity = b.encoder1.velocity

/-- Agreement of two events up to the unused input fields. -/
def event_visible_eq : Event → Event → Prop
  | .joy a, .joy b => a = b
  | .imu a, .imu b => orientation_visible_eq a b
  | .ow a, .ow b => orientation_visible_eq a b
  | .enc a, .enc b => enc_msg_visible_eq a b
  | .param a, .param b => a = b
  | _, _ => False

/-- Agreement of two global states on every datum the publishing path
can ever read; vel_lowpass and the left-wheel position are free. -/
def globals_visible_eq (a b : Globals) : Prop :=
  a.main_loop = b.main_loop ∧
  a.velocity_cmd = b.velocity_cmd ∧
  orientation_visible_eq a.orientation_imu_measurement b.orientation_imu_measurement ∧
  orientation_visible_eq a.orientation_ow_measurement b.orientation_ow_measurement ∧
  a.encoders_measurement.position_right = b.encoders_measurement.position_right ∧
  a.encoders_measurement.velocity_left = b.encoders_measurement.velocity_left ∧
  a.encoders_measurement.velocity_right = b.encoders_measurement.velocity_right ∧
  a.combined_inner_wheel = b.combined_inner_wheel

/-- Each callback preserves visible agreement of the globals when fed
visibly equal events. -/
lemma handle_event_visible (g1 g2 : Globals) (e1 e2 : Event)
    (hg : globals_visible_eq g1 g2) (he : event_visible_eq e1 e2) :
    globals_visible_eq (handle_event g1 e1) (handle_event g2 e2) := by
  obtain ⟨h1, h2, h3, h4, h5, h6, h7, h8⟩ := hg
  cases e1 <;> cases e2 <;> simp only [event_visible_eq] at he
  case joy.joy a b =>
    subst he
    exact ⟨h1, by simp [handle_event, joy_topic_callback, h2], h3, h4, h5, h6, h7, h8⟩
  case imu.imu a b =>
    obtain ⟨e1, e2, e3, e4⟩ := he
    exact ⟨h1, h2, ⟨e1, e2, e3, e4⟩, h4, h5, h6, h7, h8⟩
  case ow.ow a b =>
    obtain ⟨e1, e2, e3, e4⟩ := he
    exact ⟨h1, h2, h3, ⟨e1, e2, e3, e4⟩, h5, h6, h7, h8⟩
  case enc.enc a b =>
    obtain ⟨e0, ev⟩ := he
    refine ⟨h1, h2, h3, h4, ?_, ?_, ?_, ?_⟩ <;>
      simp [handle_event, encoders_global_callback, encoders_topic_callback, e0, ev]
  case param.param a b =>
    subst he
    have key : ∀ (ps : List Parameter) (u1 u2 : Globals),
        globals_visible_eq u1 u2 →
        globals_visible_eq (param_change_callback u1 ps) (param_change_callback u2 ps) := by
      intro ps
      induction ps with
      | nil => intro u1 u2 hu; exact hu
      | cons p rest ih =>
        intro u1 u2 hu
        apply ih
        obtain ⟨k1, k2, k3, k4, k5, k6, k7, k8⟩ := hu
        unfold param_apply
        split_ifs <;> exact ⟨by simp [k1], by simp [k2], k3, k4, k5, k6, k7, k8⟩
    exact key a g1 g2 ⟨h1, h2, h3, h4, h5, h6, h7, h8⟩

/-- Visible agreement is preserved by a whole batch of events. -/
lemma fold_handle_visible :
    ∀ {evs1 evs2 : List Event}, List.Forall₂ event_visible_eq evs1 evs2 →
    ∀ (g1 g2 : Globals), globals_visible_eq g1 g2 →
      globals_visible_eq (evs1.foldl handle_event g1) (evs2.foldl handle_event g2) := by
  intro evs1 evs2 h
  induction h with
  | nil => intro g1 g2 hg; exact hg
  | cons he _ ih =>
    intro g1 g2 hg
    exact ih _ _ (handle_event_visible _ _ _ _ hg he)

/-- Visibly equal globals assemble the same state vector. -/
lemma cycle_inputs_visible (g1 g2 : Globals) (hg : globals_visible_eq g1 g2) :
    cycle_inputs_x g1 = cycle_inputs_x g2 := by
  obtain ⟨h1, h2, ⟨a1, a2, a3, a4⟩, ⟨b1, b2, b3, b4⟩, h5, h6, h7, h8⟩ := hg
  unfold cycle_inputs_x state_x
  rw [a1, a3, b2, b4, h8]

/-- One loop iteration preserves visible agreement and publishes the
same pair of messages on both sides. -/
lemma loop_step_visible (s1 s2 : LoopState) (evs1 evs2 : List Event)
    (hg : globals_visible_eq s1.g s2.g) (ht : s1.target_w = s2.target_w)
    (hv : s1.velocity_lp = s2.velocity_lp)
    (he : List.Forall₂ event_visible_eq evs1 evs2) :
    globals_visible_eq (loop_step s1 evs1).1.g (loop_step s2 evs2).1.g ∧
    (loop_step s1 evs1).1.target_w = (loop_step s2 evs2).1.target_w ∧
    (loop_step s1 evs1).1.velocity_lp = (loop_step s2 evs2).1.velocity_lp ∧
    (loop_step s1 evs1).2 = (loop_step s2 evs2).2 := by
  have hx := cycle_inputs_visible _ _ hg
  have hcore : cycle_core ⟨s1.target_w, s1.velocity_lp⟩ (cycle_inputs_x s1.g)
      s1.g.velocity_cmd s1.g.main_loop =
      cycle_core ⟨s2.target_w, s2.velocity_lp⟩ (cycle_inputs_x s2.g)
      s2.g.velocity_cmd s2.g.main_loop := by
    rw [hx, ht, hv, hg.2.1, hg.1]
  refine ⟨fold_handle_visible he _ _ hg, ?_, ?_, ?_⟩ <;>
    simp only [loop_step] <;> rw [hcore]

/-- Runs from visibly equal states over visibly equal event schedules
publish identical message streams. -/
lemma run_outputs_visible :
    ∀ {evss1 evss2 : List (List Event)},
      List.Forall₂ (List.Forall₂ event_visible_eq) evss1 evss2 →
    ∀ (s1 s2 : LoopState), globals_visible_eq s1.g s2.g →
      s1.target_w = s2.target_w → s1.velocity_lp = s2.velocity_lp →
      run_outputs s1 evss1 = run_outputs s2 evss2 := by
  intro evss1 evss2 h
  induction h with
  | nil => intro s1 s2 _ _ _; rfl
  | cons he _ ih =>
    intro s1 s2 hg ht hv
    obtain ⟨hg2, ht2, hv2, hout⟩ := loop_step_visible s1 s2 _ _ hg ht hv he
    rw [run_outputs, run_outputs, hout, ih _ _ hg2 ht2 hv2]

/-- C10: two runs whose inputs are identical except for the
vel_lowpass parameter value, the raw left-wheel encoder position, or
the yaw, d_yaw and dt fields of any orientation sample publish
identical Balance and Motors messages on every cycle. -/
theorem unused_inputs_noninterference (vl1 vl2 : ℚ)
    (evss1 evss2 : List (List Event))
    (h : List.Forall₂ (List.Forall₂ event_visible_eq) evss1 evss2) :
    run_outputs (init_loop_state vl1) evss1 =
      run_outputs (init_loop_state vl2) evss2 :=
  run_outputs_visible h _ _
    ⟨rfl, rfl, ⟨rfl, rfl, rfl, rfl⟩, ⟨rfl, rfl, rfl, rfl⟩, rfl, rfl, rfl, rfl⟩
    rfl rfl

/-- C10 witness: one cycle, different vel_lowpass values, an IMU sample
differing in yaw, d_yaw and dt, and an encoder message differing in the
raw left position, still publish the same messages. -/
theorem unused_inputs_noninterference_witness :
    run_outputs (init_loop_state 20)
        [[Event.imu ⟨1, 2, 3, 4, 5, 6, 7⟩, Event.enc ⟨⟨1, 2⟩, ⟨3, 4⟩⟩]] =
      run_outputs (init_loop_state 0)
        [[Event.imu ⟨1, 2, 9, 4, 5, 8, 9⟩, Event.enc ⟨⟨1, 2⟩, ⟨5, 4⟩⟩]] :=
  unused_inputs_noninterference 20 0 _ _
    (List.Forall₂.cons
      (List.Forall₂.cons (show event_visible_eq _ _ from ⟨rfl, rfl, rfl, rfl⟩)
        (List.Forall₂.cons (show event_visible_eq _ _ from ⟨rfl, rfl⟩)
          List.Forall₂.nil))
      List.Forall₂.nil)

end BalanceRobot
